import Mathlib

/-!
Verification of the CDS-retriever orchestration engine
(`ERA5_retrieve_postproc.py` plus the configuration glue in `config.py`).

The development shallowly embeds the parts of the program the properties
talk about:

* the filename codec and year-span parsing (`create_filename`,
  `first_last_year`) imported from the `CDS_retriever` module, modelled
  from the spec because their source is not part of the two embedded files;
* the monthly aggregation block (merge / delete of per-year inputs,
  `main` lines 152-177);
* the time-axis alignment hack (`main` lines 180-187);
* the batched process scheduler (`main` lines 102-115 and 127-147);
* the per-variable loop with its `do_retrieve` / `do_postproc` flags
  (`main` lines 77-118);
* the top-level configuration handling (`main` lines 33-42 and 222-223,
  `config.load_config`).

File stores are modelled as lists of structured filenames (optionally with
contents); machine-level details (actual netCDF bytes, process ids) are
abstracted, but every control-flow decision of the Python source is kept.
-/

namespace CDS

/-- A retrieval key: the non-year components every archive filename
encodes, per the spec's RetrievalKey data model
{dataset, variable, frequency, grid, levelMode, area}. -/
structure Key where
  dataset : String
  varname : String
  freq : String
  grid : String
  levelout : String
  area : String
deriving DecidableEq, Repr

/-- The year token embedded in a filename: either one 4-digit year
(per-year files) or a first-last span (merged multi-year files). -/
inductive YearTok where
  | single (y : Nat)
  | span (a b : Nat)
deriving DecidableEq, Repr

/-- Modelled from the spec: `create_filename` of the CDS_retriever module
(not part of the embedded sources) is a pure, deterministic, injective
mapping from a RetrievalKey plus a year token to an archive filename.
We model the filename as the pair itself, which is trivially injective. -/
structure Fname where
  key : Key
  tok : YearTok
deriving DecidableEq, Repr

/-- Glob patterns over the year token position: the `????` wildcard used
for per-year files (line 155) and the `????-????` wildcard used for a
previously merged file (lines 160-161). -/
inductive YearPat where
  | anySingle
  | anySpan
deriving DecidableEq, Repr

/-- Whether a year token matches a year-position glob pattern: `????`
(four characters) matches exactly the single 4-digit year tokens, and
`????-????` exactly the span tokens. -/
def matchTok : YearPat → YearTok → Bool
  | .anySingle, .single _ => true
  | .anySingle, .span _ _ => false
  | .anySpan, .single _ => false
  | .anySpan, .span _ _ => true

/-- The effect of `glob.glob` over the store directory restricted to one retrieval key:
the files present whose name matches the pattern. -/
def globStore (store : List Fname) (k : Key) (p : YearPat) : List Fname :=
  store.filter (fun f => decide (f.key = k) && matchTok p f.tok)

/-- The 4-digit year tokens embedded in one filename. -/
def yearsOfTok : YearTok → List Nat
  | .single y => [y]
  | .span a b => [a, b]

/-- Modelled from the spec: `first_last_year` of the CDS_retriever module
(not part of the embedded sources) scans the files matching a wildcard
pattern and returns the minimum and maximum 4-digit year tokens embedded
in the matched names; no matching file means "no data yet" (`none`). -/
def firstLastYear (store : List Fname) (k : Key) (p : YearPat) : Option (Nat × Nat) :=
  match ((globStore store k p).map (fun f => yearsOfTok f.tok)).flatten with
  | [] => none
  | y :: ys => some (ys.foldl min y, ys.foldl max y)

/-! ## The monthly aggregation block (`main` lines 152-177)

The store directory `destdir = storedir/freq` is modelled as a list of
filenames.  The block is embedded as a function from the incoming store to
the resulting store plus an ordered log of filesystem events, or `none`
where the Python run would fail (`first_last_year` finding no file, or
`cdo.cat` invoked on an empty or partly missing input list). -/

/-- Filesystem events performed by the aggregation block, in program
order: `remove f` is `os.remove`, `catWrite out inputs` is the successful
`cdo.cat` producing `out` from `inputs`. -/
inductive FsEv where
  | remove (f : Fname)
  | catWrite (out : Fname) (inputs : List Fname)
deriving DecidableEq, Repr

/-- Boolean membership of a filename in a store (kept explicit so that
concrete runs reduce by `decide`). -/
def memF (a : Fname) : List Fname → Bool
  | [] => false
  | x :: xs => decide (x = a) || memF a xs

/-- Lines 169-171: `os.remove(mergefile)` when a file of the target's
exact name already exists — the store just before `cdo.cat` runs. -/
def preStore (m : Fname) (store : List Fname) : List Fname :=
  if memF m store then store.filter (fun f => decide (f ≠ m)) else store

/-- The event (if any) of the removal at lines 169-171. -/
def preEvs (m : Fname) (store : List Fname) : List FsEv :=
  if memF m store then [.remove m] else []

/-- The input files `cdo.cat` concatenates (line 173): in update mode the
explicit list `filebase + glob(filepattern)` computed at lines 162-164
from the store as it was *before* the line-171 removal; in non-update
mode the glob pattern resolved at `cat` time, after that removal. -/
def mergeInputs (update : Bool) (k : Key) (store store1 : List Fname) : List Fname :=
  if update then globStore store k .anySpan ++ globStore store k .anySingle
  else globStore store1 k .anySingle

/-- Lines 166-177 once `first_year` and `last_year` are known: build the
target spanning `fy-ly`, delete a pre-existing file of that exact name,
concatenate the inputs into the target, then — only in non-update mode,
where `filepattern` is still a string (line 174) — glob the per-year
pattern again and delete every match.  `none` models `cdo.cat` failing:
its input list is empty, or names a file deleted at line 171. -/
def mergeCore (update : Bool) (k : Key) (store : List Fname) (fy ly : Nat) :
    Option (List Fname × List FsEv) :=
  let m : Fname := ⟨k, .span fy ly⟩
  let store1 := preStore m store
  let inputs := mergeInputs update k store store1
  if inputs.isEmpty then none
  else if inputs.all (fun f => memF f store1) then
    let store2 := store1 ++ [m]
    let evs2 := preEvs m store ++ [FsEv.catWrite m inputs]
    if update then some (store2, evs2)
    else
      let doomed := globStore store2 k .anySingle
      some (store2.filter (fun f => !(memF f doomed)), evs2 ++ doomed.map FsEv.remove)
  else none

/-- The monthly "extra processing" merge of `main` lines 155-177, for one
retrieval key `k` (whose frequency is monthly).

* line 156: `first_year, last_year = first_last_year(filepattern)` over
  the per-year `????` pattern;
* lines 158-164 (update mode): glob the `????-????` pattern for a
  previously merged file and take `first_year` from it instead;
* lines 166-177: `mergeCore` above.

`none` models a failing run: no per-year file (line 156 has no match),
update mode with no span file at all (line 163 has no match), or
`cdo.cat` failing inside `mergeCore`. -/
def mergeMonthly (update : Bool) (k : Key) (store : List Fname) :
    Option (List Fname × List FsEv) :=
  match firstLastYear store k .anySingle,
        (if update then (firstLastYear store k .anySpan).map Prod.fst
         else (firstLastYear store k .anySingle).map Prod.fst) with
  | some (_, ly), some fy => mergeCore update k store fy ly
  | _, _ => none

/-! ## Time-axis alignment (`main` lines 180-187)

A merged monthly file is abstracted to its list of timestamps, in minutes
(an `Int`, so that shifting below zero is meaningful).  `cdo.showtime` of
the first timestep reads the head; the comparison with the string
`'00:00:00'` is the test `t % 1440 = 0`; `cdo.shifttime('-6hours')`
subtracts 360 minutes from every timestamp.  The temp-file dance
(move to `temp_align.nc`, shift back into place, remove the temp file)
leaves exactly this content-level effect.  `none` models the Python
failure of `showtime(...)[0]` on a file with no timestep. -/

/-- One run of the alignment block on the merged file's timestamps. -/
def alignOnce (f : List Int) : Option (List Int) :=
  match f with
  | [] => none
  | t :: _ => if t % 1440 = 0 then some f else some (f.map (fun x => x - 360))

/-! ## The batched worker scheduler (`main` lines 102-115 / 127-147)

`yearlist = [years[i:i + nprocs] for i in range(0, len(years), nprocs)]`
chunks the year list into consecutive slices of size `nprocs`; each slice
is launched as one batch of worker processes and every process started so
far is joined before the next slice begins. -/

/-- The slicing `[l[i:i+n] for i in range(0, len(l), n)]`.  For `n = 0`
the Python `range` raises `ValueError`; the model returns `[]` and every
theorem about it assumes `0 < n`. -/
def chunks (n : Nat) (l : List α) : List (List α) :=
  if n = 0 then [] else
    match l with
    | [] => []
    | x :: xs => (x :: xs).take n :: chunks n ((x :: xs).drop n)
termination_by l.length
decreasing_by
  simp only [List.length_drop, List.length_cons]
  omega

/-- Observable worker events: a worker process for year `y` starting
(`p.start()`) or terminating (observed at the latest by `p.join()`). -/
inductive WEv where
  | start (y : Nat)
  | fin (y : Nat)
deriving DecidableEq, Repr

/-- The years of the start events of a trace, in order. -/
def startsOf (t : List WEv) : List Nat :=
  t.filterMap (fun e => match e with | .start y => some y | .fin _ => none)

/-- The years of the termination events of a trace, in order. -/
def finsOf (t : List WEv) : List Nat :=
  t.filterMap (fun e => match e with | .fin y => some y | .start _ => none)

/-- The number of workers alive after the event list `t`: started and not
yet terminated. -/
def activeCount (t : List WEv) : Nat :=
  (startsOf t).length - (finsOf t).length

/-- The event interleavings one batch of the scheduler can produce: the
batch's workers start in list order (`p.start()` in the `for` loop), every
worker of the batch terminates within the batch's segment (forced by the
`join` loop that follows the starts), and no worker terminates before it
has started. -/
def IsBatchSeg (b : List Nat) (s : List WEv) : Prop :=
  startsOf s = b ∧ (finsOf s).Perm b ∧
  ∀ p q, s = p ++ q → (finsOf p).length ≤ (startsOf p).length

/-- The traces of the whole scheduler on a batch list: one segment per
batch, in batch order.  The concatenation is exactly the join barrier of
lines 113-115 / 145-147: every event of batch `i` — in particular every
termination — precedes every event of batch `i+1`. -/
inductive SchedTrace : List (List Nat) → List WEv → Prop where
  | nil : SchedTrace [] []
  | cons {b : List Nat} {s : List WEv} {bs : List (List Nat)} {t : List WEv} :
      IsBatchSeg b s → SchedTrace bs t → SchedTrace (b :: bs) (s ++ t)

/-! ## The conversion scheduler with file contents (`main` lines 127-147)

For the skip law the store must carry contents, so here it is a list of
(filename, content) pairs; content is abstract (`String`).  Workers of one
run write pairwise distinct target names (one per year), so the
concurrent batch execution is observationally the sequential fold below:
a year whose target `????.nc` file already exists is skipped
(`continue`, lines 137-139), otherwise a `year_convert` worker produces
the target from the year's grib file, modelled by the abstract content
function `conv`. -/

/-- Content lookup in a store with contents. -/
def lookupF (a : Fname) : List (Fname × String) → Option String
  | [] => none
  | (n, c) :: t => if n = a then some c else lookupF a t

/-- The conversion loop for retrieval key `k` over the year list `ys`:
returns the resulting store and the years for which a conversion worker
was actually started. -/
def runConversion (k : Key) (conv : Nat → String) :
    List Nat → List (Fname × String) → List (Fname × String) × List Nat
  | [], store => (store, [])
  | y :: ys, store =>
    if (lookupF ⟨k, .single y⟩ store).isSome then
      runConversion k conv ys store
    else
      let r := runConversion k conv ys (store ++ [(⟨k, .single y⟩, conv y)])
      (r.1, y :: r.2)

/-! ## The per-variable loop and the top level (`main` lines 28-118, 222-223)

The loop state carries the four variables `main` mutates across loop
iterations: `do_retrieve`, the combined `do_postproc`, and the year
bounds.  The environment is abstracted by `detect` (the
`which_new_years_download` call of line 81, CDS_retriever code outside the
embedded sources) and `existsOut` (the `os.path.exists` test of
line 137). -/

/-- Loop-carried state of `main`'s per-variable loop. -/
structure LoopSt where
  do_retrieve : Bool
  do_postproc : Bool
  year1 : Nat
  year2 : Nat
deriving DecidableEq, Repr

/-- The list `[str(i) for i in range(year1, year2+1)]`, as numbers. -/
def yearsBetween (y1 y2 : Nat) : List Nat :=
  (List.range (y2 + 1 - y1)).map (fun i => y1 + i)

/-- What one loop iteration observably did. -/
structure VarRun where
  retrieveStarted : List Nat
  convertStarted : List Nat
  postprocRan : Bool
deriving DecidableEq, Repr

/-- One iteration of the per-variable loop (lines 79-147 restricted to
the scheduling decisions): in update mode the year bounds are re-detected
and, when the detected range is empty, `do_retrieve` (and for monthly
frequency `do_postproc`) is turned off; retrieval workers are started for
every year of the range iff `do_retrieve` holds; conversion workers for
every year whose target file does not exist yet iff `do_postproc` holds. -/
def stepVar (update : Bool) (freq : String) (detect : String → Nat × Nat)
    (existsOut : String → Nat → Bool) (st : LoopSt) (v : String) :
    LoopSt × VarRun :=
  let st' :=
    if update then
      let yd := detect v
      if yd.2 < yd.1 then
        { st with year1 := yd.1, year2 := yd.2, do_retrieve := false,
                  do_postproc := if freq = "mon" then false else st.do_postproc }
      else { st with year1 := yd.1, year2 := yd.2 }
    else st
  let years := yearsBetween st'.year1 st'.year2
  ( st',
    { retrieveStarted := if st'.do_retrieve then years else []
      convertStarted := if st'.do_postproc then years.filter (fun y => !(existsOut v y)) else []
      postprocRan := st'.do_postproc } )

/-- The whole per-variable loop, returning the per-variable observations
in order. -/
def runLoop (update : Bool) (freq : String) (detect : String → Nat × Nat)
    (existsOut : String → Nat → Bool) (st : LoopSt) : List String → List VarRun
  | [] => []
  | v :: vs =>
    let r := stepVar update freq detect existsOut st v
    r.2 :: runLoop update freq detect existsOut r.1 vs

/-- The loop state after the per-variable loop has processed a list of
variables. -/
def loopStates (update : Bool) (freq : String) (detect : String → Nat × Nat)
    (existsOut : String → Nat → Bool) (st : LoopSt) : List String → LoopSt
  | [] => st
  | v :: vs =>
    loopStates update freq detect existsOut
      (stepVar update freq detect existsOut st v).1 vs

/-- The configured `varlist` value, which the YAML may give either as a
single string or as a list of strings. -/
inductive PyVarList where
  | str (s : String)
  | list (l : List String)
deriving DecidableEq, Repr

/-- The safecheck of lines 74-75: a plain string is wrapped into a
one-element list, and the loop of line 77 then iterates over that list. -/
def varsOf : PyVarList → List String
  | .str s => [s]
  | .list l => l

/-- The configuration fields `main` reads (lines 42-60). -/
structure Config where
  varlist : PyVarList
  year1 : Nat
  year2 : Nat
  update : Bool
  freq : String
  nprocs : Nat
  do_retrieve : Bool
  do_postproc_6h : Bool
  do_postproc_day : Bool
  do_postproc_mon : Bool

/-- Line 63: `do_postproc = any([do_postproc_6h, do_postproc_day,
do_postproc_mon])`. -/
def anyPostproc (c : Config) : Bool :=
  c.do_postproc_6h || c.do_postproc_day || c.do_postproc_mon

/-- The two command-line flags that reach the core, from `config.parser`. -/
structure Args where
  config : Option String
  nprocs : Option Nat
  update : Bool

/-- A configuration file's parse status: well-formed YAML yielding the
configuration dictionary, or malformed YAML raising `yaml.YAMLError`
inside `load_config`. -/
inductive YamlDoc where
  | valid (c : Config)
  | invalid

/-- The function `config.load_config` (config.py lines 22-34): well-formed YAML
returns the configuration; on `yaml.YAMLError` it prints a message and
returns `None` — it does not terminate the program. -/
def load_config : YamlDoc → Option Config
  | .valid c => some c
  | .invalid => none

/-- How a run of `main` ends. -/
inductive Outcome where
  | exited (code : Nat) (msg : String)
  | raised (exc : String)
  | finished
deriving DecidableEq, Repr

/-- The top level of `main` (lines 28-91, 222-223): without `--config`
the `else` of line 222 runs `sys.exit('Error in loading the
configuration!')`, which exits with status 1 and performs nothing; with a
config path whose YAML is malformed, `load_config` returns `None` and the
very next use of the configuration — `print_config(config)` reading
`conf_dict['tmpdir']` (config.py line 42) — raises `TypeError`
(subscripting `None`); otherwise the per-variable loop runs with the
configured flags, `--update` overriding the YAML update flag
(lines 69-71) and a truthy `--nprocs` overriding `nprocs`
(lines 66-68). -/
def mainModel (args : Args) (docAt : String → YamlDoc)
    (detect : String → Nat × Nat) (existsOut : String → Nat → Bool) :
    Outcome × List VarRun :=
  match args.config with
  | none => (.exited 1 "Error in loading the configuration!", [])
  | some p =>
    match load_config (docAt p) with
    | none => (.raised "TypeError: NoneType object is not subscriptable", [])
    | some c =>
      let update := if args.update then true else c.update
      ( .finished,
        runLoop update c.freq detect existsOut
          ⟨c.do_retrieve, anyPostproc c, c.year1, c.year2⟩ (varsOf c.varlist) )

/-! ## Helper lemmas -/

theorem memF_eq_true_iff (a : Fname) (l : List Fname) : memF a l = true ↔ a ∈ l := by
  induction l with
  | nil => simp [memF]
  | cons x xs ih =>
    simp only [memF, Bool.or_eq_true, decide_eq_true_eq, List.mem_cons, ih]
    constructor
    · rintro (h | h)
      · exact Or.inl h.symm
      · exact Or.inr h
    · rintro (h | h)
      · exact Or.inl h.symm
      · exact Or.inr h

theorem mem_globStore (store : List Fname) (k : Key) (p : YearPat) (f : Fname) :
    f ∈ globStore store k p ↔ f ∈ store ∧ f.key = k ∧ matchTok p f.tok = true := by
  simp [globStore, List.mem_filter, and_assoc]

/-! ## C7: no configuration argument -/

/-- C7: without a `--config` argument the program terminates at once via
`sys.exit('Error in loading the configuration!')`, which is a nonzero
exit reported to the operator, and no retrieval or post-processing work
is performed (the work list is empty). -/
theorem no_config_fatal_exit (args : Args) (docAt : String → YamlDoc)
    (detect : String → Nat × Nat) (existsOut : String → Nat → Bool)
    (h : args.config = none) :
    ∃ code msg, code ≠ 0 ∧
      mainModel args docAt detect existsOut = (.exited code msg, []) := by
  refine ⟨1, "Error in loading the configuration!", by decide, ?_⟩
  simp [mainModel, h]

/-- Witness for `no_config_fatal_exit` at the concrete argument vector
with no configuration path. -/
theorem no_config_fatal_exit_witness :
    (Args.mk none none false).config = none ∧
    ∃ code msg, code ≠ 0 ∧
      mainModel (Args.mk none none false) (fun _ => .invalid)
        (fun _ => (0, 0)) (fun _ _ => false) = (.exited code msg, []) :=
  ⟨rfl, no_config_fatal_exit (Args.mk none none false) (fun _ => .invalid)
    (fun _ => (0, 0)) (fun _ _ => false) rfl⟩

/-! ## C9: malformed YAML is not the immediate fatal exit -/

/-- C9: when the supplied configuration file is invalid YAML,
`load_config` returns `None` instead of terminating, and the program then
fails at the first subscript of the configuration (a `TypeError` on
`None`, raised in `print_config` reading `conf_dict['tmpdir']`), not with
the immediate `sys.exit` outcome used for an absent `--config`
argument. -/
theorem invalid_yaml_late_failure (args : Args) (docAt : String → YamlDoc)
    (detect : String → Nat × Nat) (existsOut : String → Nat → Bool)
    (p : String) (hc : args.config = some p) (hd : docAt p = .invalid) :
    load_config (docAt p) = none ∧
    mainModel args docAt detect existsOut =
      (.raised "TypeError: NoneType object is not subscriptable", []) ∧
    ∀ code msg, (mainModel args docAt detect existsOut).1 ≠ .exited code msg := by
  refine ⟨by rw [hd]; rfl, ?_, ?_⟩
  · simp [mainModel, hc, hd, load_config]
  · intro code msg
    simp [mainModel, hc, hd, load_config]

/-- Witness for `invalid_yaml_late_failure` at a concrete argument vector
pointing at a malformed document. -/
theorem invalid_yaml_late_failure_witness :
    (Args.mk (some "conf.yml") none false).config = some "conf.yml" ∧
    (fun _ : String => YamlDoc.invalid) "conf.yml" = .invalid ∧
    load_config ((fun _ : String => YamlDoc.invalid) "conf.yml") = none := by
  refine ⟨rfl, rfl, ?_⟩
  exact (invalid_yaml_late_failure (Args.mk (some "conf.yml") none false)
    (fun _ => .invalid) (fun _ => (0, 0)) (fun _ _ => false) "conf.yml" rfl rfl).1

/-! ## C10: a string varlist is wrapped -/

/-- C10: a `varlist` configured as a single string is wrapped into a
one-element list by the safecheck of lines 74-75, so the per-variable
loop runs exactly once for it (instead of iterating over the string's
characters). -/
theorem varlist_string_wrapped (s : String) (update : Bool) (freq : String)
    (detect : String → Nat × Nat) (existsOut : String → Nat → Bool) (st : LoopSt) :
    varsOf (.str s) = [s] ∧
    (runLoop update freq detect existsOut st (varsOf (.str s))).length = 1 :=
  ⟨rfl, rfl⟩

/-! ## C6: alignment idempotence -/

/-- C6 counterexample: on a merged file whose first timestamp is 12:00
(720 minutes), one alignment run shifts to 06:00 and a second run shifts
again to 00:00, so running the alignment twice does not equal running it
once — the claimed idempotence fails. -/
theorem align_idempotent_cex :
    (alignOnce [(720 : Int)]).bind alignOnce ≠ alignOnce [(720 : Int)] := by
  decide

/-- C6 amended: if the merged file's first timestamp is already 00:00:00
no shift is performed and the file is left untouched; and running the
alignment twice equals running it once precisely when the first
timestamp is at midnight or exactly 6 hours past it (the ERA5
accumulated-data case) — for every other first timestamp the second run
shifts the file again, yielding a different file. -/
theorem align_idempotent_amended (t : Int) (rest : List Int) :
    (t % 1440 = 0 → alignOnce (t :: rest) = some (t :: rest)) ∧
    ((alignOnce (t :: rest)).bind alignOnce = alignOnce (t :: rest) ↔
      (t % 1440 = 0 ∨ t % 1440 = 360)) := by
  constructor
  · intro h0
    simp only [alignOnce, if_pos h0]
  · constructor
    · intro heq
      by_cases h0 : t % 1440 = 0
      · exact Or.inl h0
      · right
        by_contra h6
        have e1 : alignOnce (t :: rest) =
            some ((t - 360) :: rest.map (fun x => x - 360)) := by
          simp only [alignOnce, if_neg h0, List.map_cons]
        have hz : ¬ (t - 360) % 1440 = 0 := by omega
        rw [e1] at heq
        have heq3 : alignOnce ((t - 360) :: rest.map (fun x => x - 360)) =
            some ((t - 360) :: rest.map (fun x => x - 360)) := heq
        have e2 : alignOnce ((t - 360) :: rest.map (fun x => x - 360)) =
            some ((t - 360 - 360) ::
              (rest.map (fun x => x - 360)).map (fun x => x - 360)) := by
          simp only [alignOnce, if_neg hz, List.map_cons]
        rw [e2] at heq3
        simp only [Option.some.injEq, List.cons.injEq] at heq3
        obtain ⟨hhead, _⟩ := heq3
        omega
    · rintro (h0 | h6)
      · have e1 : alignOnce (t :: rest) = some (t :: rest) := by
          simp only [alignOnce, if_pos h0]
        rw [e1]
        show alignOnce (t :: rest) = some (t :: rest)
        exact e1
      · have hne : ¬ t % 1440 = 0 := by omega
        have hz : (t - 360) % 1440 = 0 := by omega
        have e1 : alignOnce (t :: rest) =
            some ((t - 360) :: rest.map (fun x => x - 360)) := by
          simp only [alignOnce, if_neg hne, List.map_cons]
        rw [e1]
        show alignOnce ((t - 360) :: rest.map (fun x => x - 360)) = _
        simp only [alignOnce, if_pos hz]

/-- Witness for `align_idempotent_amended` on a file starting at
06:00:00: the biconditional instantiated there, with its right-to-left
direction discharged at the concrete disjunct. -/
theorem align_idempotent_amended_witness :
    (((alignOnce [(360 : Int), 44640]).bind alignOnce = alignOnce [(360 : Int), 44640]) ↔
      ((360 : Int) % 1440 = 0 ∨ (360 : Int) % 1440 = 360)) ∧
    ((360 : Int) % 1440 = 0 → alignOnce [(360 : Int), 44640] = some [360, 44640]) ∧
    (alignOnce [(360 : Int), 44640]).bind alignOnce = alignOnce [(360 : Int), 44640] :=
  ⟨(align_idempotent_amended 360 [44640]).2,
   (align_idempotent_amended 360 [44640]).1,
   (align_idempotent_amended 360 [44640]).2.mpr (Or.inr (by decide))⟩

/-! ## C3: empty detected range short-circuits both schedulers -/

/-- C3: in update mode, when the detected year range of a variable is
empty (`year1 > year2`), the year list is empty and `do_retrieve` is
disabled, so the iteration starts no retrieval worker and no conversion
worker. -/
theorem empty_range_no_workers (freq : String) (detect : String → Nat × Nat)
    (existsOut : String → Nat → Bool) (st : LoopSt) (v : String)
    (y1 y2 : Nat) (hd : detect v = (y1, y2)) (h : y2 < y1) :
    yearsBetween y1 y2 = [] ∧
    (stepVar true freq detect existsOut st v).1.do_retrieve = false ∧
    (stepVar true freq detect existsOut st v).2.retrieveStarted = [] ∧
    (stepVar true freq detect existsOut st v).2.convertStarted = [] := by
  have hy : y2 + 1 - y1 = 0 := by omega
  have hyl : yearsBetween y1 y2 = [] := by
    simp [yearsBetween, hy]
  refine ⟨hyl, ?_⟩
  simp [stepVar, hd, h, hyl]

/-- Witness for `empty_range_no_workers`: a variable detected as fully up
to date (range 2024..2023). -/
theorem empty_range_no_workers_witness :
    (fun _ : String => ((2024, 2023) : Nat × Nat)) "msl" = (2024, 2023) ∧
    (2023 : Nat) < 2024 ∧ yearsBetween 2024 2023 = [] :=
  ⟨rfl, by decide,
    (empty_range_no_workers "1hr" (fun _ => (2024, 2023)) (fun _ _ => false)
      ⟨true, true, 1990, 2020⟩ "msl" 2024 2023 rfl (by decide)).1⟩

/-! ## C5: conversion skip law -/

theorem lookupF_append (a : Fname) (l l2 : List (Fname × String)) (c : String)
    (h : lookupF a l = some c) : lookupF a (l ++ l2) = some c := by
  induction l with
  | nil => exact absurd h (by simp [lookupF])
  | cons p t ih =>
    obtain ⟨n, d⟩ := p
    by_cases hn : n = a
    · simpa [lookupF, hn] using h
    · rw [List.cons_append]
      simp only [lookupF, if_neg hn] at h ⊢
      exact ih h

/-- C5: if a year's target archival `.nc` file already exists before the
conversion scheduler runs, no conversion worker is started for that year
and that file's content is unchanged once the scheduler completes. -/
theorem conversion_skip_law (k : Key) (conv : Nat → String) (ys : List Nat)
    (store : List (Fname × String)) (y : Nat) (c : String)
    (h : lookupF ⟨k, .single y⟩ store = some c) :
    y ∉ (runConversion k conv ys store).2 ∧
    lookupF ⟨k, .single y⟩ (runConversion k conv ys store).1 = some c := by
  induction ys generalizing store with
  | nil => simpa [runConversion] using h
  | cons y' ys ih =>
    by_cases hy : (lookupF ⟨k, .single y'⟩ store).isSome
    · rw [runConversion, if_pos hy]
      exact ih store h
    · rw [runConversion, if_neg hy]
      have hne : y' ≠ y := by
        intro he
        rw [he, h] at hy
        exact hy rfl
      have h' : lookupF ⟨k, .single y⟩ (store ++ [(⟨k, .single y'⟩, conv y')]) = some c :=
        lookupF_append _ _ _ _ h
      have := ih (store ++ [(⟨k, .single y'⟩, conv y')]) h'
      refine ⟨?_, this.2⟩
      simp only [List.mem_cons]
      rintro (he | he)
      · exact hne he.symm
      · exact this.1 he

/-- Witness for `conversion_skip_law`: the 2000 target already exists
with content z, years 2000-2001 are scheduled. -/
theorem conversion_skip_law_witness :
    lookupF ⟨⟨"era5", "tas", "mon", "g", "sfc", "glob"⟩, .single 2000⟩
        [(⟨⟨"era5", "tas", "mon", "g", "sfc", "glob"⟩, .single 2000⟩, "z")] = some "z" ∧
    2000 ∉ (runConversion ⟨"era5", "tas", "mon", "g", "sfc", "glob"⟩ (fun _ => "c")
        [2000, 2001] [(⟨⟨"era5", "tas", "mon", "g", "sfc", "glob"⟩, .single 2000⟩, "z")]).2 ∧
    lookupF ⟨⟨"era5", "tas", "mon", "g", "sfc", "glob"⟩, .single 2000⟩
        (runConversion ⟨"era5", "tas", "mon", "g", "sfc", "glob"⟩ (fun _ => "c")
          [2000, 2001] [(⟨⟨"era5", "tas", "mon", "g", "sfc", "glob"⟩, .single 2000⟩, "z")]).1 = some "z" := by
  refine ⟨rfl, ?_⟩
  have := conversion_skip_law ⟨"era5", "tas", "mon", "g", "sfc", "glob"⟩ (fun _ => "c")
    [2000, 2001] [(⟨⟨"era5", "tas", "mon", "g", "sfc", "glob"⟩, .single 2000⟩, "z")] 2000 "z" rfl
  exact this

/-! ## C1 and C2: the monthly merge -/

theorem filter_filter_of_imp {α : Type _} (l : List α) (p q : α → Bool)
    (himp : ∀ a, p a = true → q a = true) : (l.filter q).filter p = l.filter p := by
  induction l with
  | nil => rfl
  | cons x xs ih =>
    by_cases hq : q x = true
    · by_cases hp : p x = true
      · rw [List.filter_cons, if_pos hq, List.filter_cons, if_pos hp,
          List.filter_cons, if_pos hp, ih]
      · rw [List.filter_cons, if_pos hq, List.filter_cons, if_neg hp,
          List.filter_cons, if_neg hp, ih]
    · have hp : ¬ p x = true := fun hp => hq (himp x hp)
      rw [List.filter_cons, if_neg hq, List.filter_cons, if_neg hp, ih]

theorem mem_preStore_of_mem (m f : Fname) (store : List Fname)
    (hf : f ∈ store) (hne : f ≠ m) : f ∈ preStore m store := by
  unfold preStore
  by_cases hm : memF m store = true
  · rw [if_pos hm]
    exact List.mem_filter.mpr ⟨hf, by simp [hne]⟩
  · rw [if_neg hm]
    exact hf

theorem preStore_subset (m f : Fname) (store : List Fname)
    (hf : f ∈ preStore m store) : f ∈ store := by
  unfold preStore at hf
  by_cases hm : memF m store = true
  · rw [if_pos hm] at hf
    exact (List.mem_filter.mp hf).1
  · rw [if_neg hm] at hf
    exact hf

theorem count_preStore_self (m : Fname) (store : List Fname) :
    (preStore m store).count m = 0 := by
  unfold preStore
  by_cases hm : memF m store = true
  · rw [if_pos hm, List.count_eq_zero]
    intro hmem
    have h2 := (List.mem_filter.mp hmem).2
    simp at h2
  · rw [if_neg hm, List.count_eq_zero]
    intro hmem
    exact hm ((memF_eq_true_iff m store).mpr hmem)

theorem globStore_preStore_span (k : Key) (fy ly : Nat) (store : List Fname) :
    globStore (preStore ⟨k, .span fy ly⟩ store) k .anySingle =
      globStore store k .anySingle := by
  unfold preStore
  by_cases hm : memF ⟨k, .span fy ly⟩ store = true
  · rw [if_pos hm]
    unfold globStore
    apply filter_filter_of_imp
    intro f hf
    simp only [Bool.and_eq_true] at hf
    apply decide_eq_true
    intro he
    subst he
    simp [matchTok] at hf
  · rw [if_neg hm]

theorem span_not_mem_glob_single (k k2 : Key) (fy ly : Nat) (store : List Fname) :
    (⟨k, .span fy ly⟩ : Fname) ∉ globStore store k2 .anySingle := by
  intro h
  have h2 := ((mem_globStore store k2 .anySingle _).mp h).2.2
  simp [matchTok] at h2

/-- Reduction of `mergeCore` in non-update mode, ifs exposed. -/
theorem mergeCore_false_eq (k : Key) (store : List Fname) (fy ly : Nat) :
    mergeCore false k store fy ly =
      (if (globStore (preStore ⟨k, .span fy ly⟩ store) k .anySingle).isEmpty then none
       else if (globStore (preStore ⟨k, .span fy ly⟩ store) k .anySingle).all
            (fun f => memF f (preStore ⟨k, .span fy ly⟩ store)) then
         some ((preStore ⟨k, .span fy ly⟩ store ++ [(⟨k, .span fy ly⟩ : Fname)]).filter
                 (fun f => !(memF f (globStore
                   (preStore ⟨k, .span fy ly⟩ store ++ [(⟨k, .span fy ly⟩ : Fname)]) k .anySingle))),
               (preEvs ⟨k, .span fy ly⟩ store ++
                  [FsEv.catWrite ⟨k, .span fy ly⟩
                    (globStore (preStore ⟨k, .span fy ly⟩ store) k .anySingle)]) ++
                 (globStore (preStore ⟨k, .span fy ly⟩ store ++ [(⟨k, .span fy ly⟩ : Fname)])
                   k .anySingle).map FsEv.remove)
       else none) := rfl

/-- Reduction of `mergeCore` in update mode, ifs exposed. -/
theorem mergeCore_true_eq (k : Key) (store : List Fname) (fy ly : Nat) :
    mergeCore true k store fy ly =
      (if (globStore store k .anySpan ++ globStore store k .anySingle).isEmpty then none
       else if (globStore store k .anySpan ++ globStore store k .anySingle).all
            (fun f => memF f (preStore ⟨k, .span fy ly⟩ store)) then
         some (preStore ⟨k, .span fy ly⟩ store ++ [(⟨k, .span fy ly⟩ : Fname)],
               preEvs ⟨k, .span fy ly⟩ store ++
                 [FsEv.catWrite ⟨k, .span fy ly⟩
                   (globStore store k .anySpan ++ globStore store k .anySingle)])
       else none) := rfl

/-- Inverting a successful `mergeMonthly`: it went through `mergeCore`
with `last_year` from the per-year files and `first_year` from the
per-year files (non-update) or the span file (update). -/
theorem mergeMonthly_inv (upd : Bool) (k : Key) (store : List Fname)
    (r : List Fname × List FsEv) (h : mergeMonthly upd k store = some r) :
    ∃ fy0 ly fy, firstLastYear store k .anySingle = some (fy0, ly) ∧
      (if upd then (firstLastYear store k .anySpan).map Prod.fst
       else (firstLastYear store k .anySingle).map Prod.fst) = some fy ∧
      mergeCore upd k store fy ly = some r := by
  unfold mergeMonthly at h
  split at h
  · next fy0 ly fy heq1 heq2 => exact ⟨fy0, ly, fy, heq1, heq2, h⟩
  · next => simp at h

theorem mergeCore_false_inv (k : Key) (store store' : List Fname) (evs : List FsEv)
    (fy ly : Nat) (h : mergeCore false k store fy ly = some (store', evs)) :
    (∀ f ∈ globStore (preStore ⟨k, .span fy ly⟩ store) k .anySingle,
        memF f (preStore ⟨k, .span fy ly⟩ store) = true) ∧
    store' = (preStore ⟨k, .span fy ly⟩ store ++ [(⟨k, .span fy ly⟩ : Fname)]).filter
        (fun f => !(memF f (globStore
          (preStore ⟨k, .span fy ly⟩ store ++ [(⟨k, .span fy ly⟩ : Fname)]) k .anySingle))) ∧
    evs = (preEvs ⟨k, .span fy ly⟩ store ++
        [FsEv.catWrite ⟨k, .span fy ly⟩
          (globStore (preStore ⟨k, .span fy ly⟩ store) k .anySingle)]) ++
      (globStore (preStore ⟨k, .span fy ly⟩ store ++ [(⟨k, .span fy ly⟩ : Fname)])
        k .anySingle).map FsEv.remove := by
  rw [mergeCore_false_eq] at h
  by_cases h1 : (globStore (preStore ⟨k, .span fy ly⟩ store) k .anySingle).isEmpty = true
  · rw [if_pos h1] at h
    simp at h
  · rw [if_neg h1] at h
    by_cases h2 : (globStore (preStore ⟨k, .span fy ly⟩ store) k .anySingle).all
        (fun f => memF f (preStore ⟨k, .span fy ly⟩ store)) = true
    · rw [if_pos h2] at h
      simp only [Option.some.injEq, Prod.mk.injEq] at h
      exact ⟨fun f hf => List.all_eq_true.mp h2 f hf, h.1.symm, h.2.symm⟩
    · rw [if_neg h2] at h
      simp at h

theorem mergeCore_true_inv (k : Key) (store store' : List Fname) (evs : List FsEv)
    (fy ly : Nat) (h : mergeCore true k store fy ly = some (store', evs)) :
    (∀ f ∈ globStore store k .anySpan ++ globStore store k .anySingle,
        memF f (preStore ⟨k, .span fy ly⟩ store) = true) ∧
    store' = preStore ⟨k, .span fy ly⟩ store ++ [(⟨k, .span fy ly⟩ : Fname)] ∧
    evs = preEvs ⟨k, .span fy ly⟩ store ++
      [FsEv.catWrite ⟨k, .span fy ly⟩
        (globStore store k .anySpan ++ globStore store k .anySingle)] := by
  rw [mergeCore_true_eq] at h
  by_cases h1 : (globStore store k .anySpan ++ globStore store k .anySingle).isEmpty = true
  · rw [if_pos h1] at h
    simp at h
  · rw [if_neg h1] at h
    by_cases h2 : (globStore store k .anySpan ++ globStore store k .anySingle).all
        (fun f => memF f (preStore ⟨k, .span fy ly⟩ store)) = true
    · rw [if_pos h2] at h
      simp only [Option.some.injEq, Prod.mk.injEq] at h
      exact ⟨fun f hf => List.all_eq_true.mp h2 f hf, h.1.symm, h.2.symm⟩
    · rw [if_neg h2] at h
      simp at h

/-- C1 counterexample.  First conjunct (update mode): with a prior merged
2000-2010 file and a fresh per-year 2011 file, the merge consumes both as
`cdo.cat` inputs and succeeds, yet the per-year 2011 input file is still
in the resulting store — the deletion of lines 174-177 is skipped because
`filepattern` is a list in update mode.  Second conjunct (non-update
mode): a pre-existing merged file bearing the target's exact name is
deleted (the first event) before the merge succeeds (the second event). -/
theorem merge_replacement_cex :
    mergeMonthly true ⟨"era5", "tprate", "mon", "g25", "sfc", "global"⟩
        [⟨⟨"era5", "tprate", "mon", "g25", "sfc", "global"⟩, .span 2000 2010⟩,
         ⟨⟨"era5", "tprate", "mon", "g25", "sfc", "global"⟩, .single 2011⟩] =
      some ([⟨⟨"era5", "tprate", "mon", "g25", "sfc", "global"⟩, .span 2000 2010⟩,
             ⟨⟨"era5", "tprate", "mon", "g25", "sfc", "global"⟩, .single 2011⟩,
             ⟨⟨"era5", "tprate", "mon", "g25", "sfc", "global"⟩, .span 2000 2011⟩],
            [.catWrite ⟨⟨"era5", "tprate", "mon", "g25", "sfc", "global"⟩, .span 2000 2011⟩
              [⟨⟨"era5", "tprate", "mon", "g25", "sfc", "global"⟩, .span 2000 2010⟩,
               ⟨⟨"era5", "tprate", "mon", "g25", "sfc", "global"⟩, .single 2011⟩]]) ∧
    mergeMonthly false ⟨"era5", "tprate", "mon", "g25", "sfc", "global"⟩
        [⟨⟨"era5", "tprate", "mon", "g25", "sfc", "global"⟩, .single 2000⟩,
         ⟨⟨"era5", "tprate", "mon", "g25", "sfc", "global"⟩, .span 2000 2000⟩] =
      some ([⟨⟨"era5", "tprate", "mon", "g25", "sfc", "global"⟩, .span 2000 2000⟩],
            [.remove ⟨⟨"era5", "tprate", "mon", "g25", "sfc", "global"⟩, .span 2000 2000⟩,
             .catWrite ⟨⟨"era5", "tprate", "mon", "g25", "sfc", "global"⟩, .span 2000 2000⟩
               [⟨⟨"era5", "tprate", "mon", "g25", "sfc", "global"⟩, .single 2000⟩],
             .remove ⟨⟨"era5", "tprate", "mon", "g25", "sfc", "global"⟩, .single 2000⟩]) := by
  constructor <;> rfl

/-- C1 amended: after a successful non-update monthly merge, no per-year
input file consumed by the merge remains in the store directory and
exactly one merged file spanning (firstYear, lastYear) exists; after a
successful update-mode merge the new merged file exists exactly once, but
every `cdo.cat` input (the pre-existing merged file and the per-year
files) remains in the store; and the only pre-existing merged file ever
deleted is one bearing exactly the new target's name, deleted as the very
first action, before — not after — the merge succeeds. -/
theorem merge_replacement_amended (k : Key) (store store' : List Fname) (evs : List FsEv) :
    (mergeMonthly false k store = some (store', evs) →
      (∀ f ∈ globStore store k .anySingle, f ∉ store') ∧
      ∃ fy ly, firstLastYear store k .anySingle = some (fy, ly) ∧
        store'.count ⟨k, .span fy ly⟩ = 1) ∧
    (mergeMonthly true k store = some (store', evs) →
      (∀ out ins, FsEv.catWrite out ins ∈ evs → ∀ f ∈ ins, f ∈ store') ∧
      ∃ fy ly, store'.count ⟨k, .span fy ly⟩ = 1 ∧
        FsEv.catWrite ⟨k, .span fy ly⟩
          (globStore store k .anySpan ++ globStore store k .anySingle) ∈ evs) ∧
    (∀ upd, mergeMonthly upd k store = some (store', evs) →
      ∀ f a b, FsEv.remove f ∈ evs → f.tok = .span a b →
        ∃ rest, evs = FsEv.remove f :: rest ∧ ∃ ins, FsEv.catWrite f ins ∈ rest) := by
  refine ⟨?_, ?_, ?_⟩
  · -- non-update replacement
    intro h
    obtain ⟨fy0, ly, fy, h1, h2, h3⟩ := mergeMonthly_inv false k store _ h
    have h2' : (firstLastYear store k .anySingle).map Prod.fst = some fy := h2
    rw [h1] at h2'
    simp only [Option.map_some', Option.some.injEq] at h2'
    subst h2'
    obtain ⟨hall, hs, he⟩ := mergeCore_false_inv k store store' evs fy0 ly h3
    constructor
    · intro f hf hctr
      obtain ⟨hfs, hkey, hmatch⟩ := (mem_globStore store k .anySingle f).mp hf
      rw [hs] at hctr
      obtain ⟨hmem2, hpred⟩ := List.mem_filter.mp hctr
      have hfd : f ∈ globStore
          (preStore ⟨k, .span fy0 ly⟩ store ++ [(⟨k, .span fy0 ly⟩ : Fname)]) k .anySingle :=
        (mem_globStore _ k .anySingle f).mpr ⟨hmem2, hkey, hmatch⟩
      rw [(memF_eq_true_iff f _).mpr hfd] at hpred
      simp at hpred
    · refine ⟨fy0, ly, h1, ?_⟩
      rw [hs]
      have hmf : memF (⟨k, .span fy0 ly⟩ : Fname)
          (globStore (preStore ⟨k, .span fy0 ly⟩ store ++ [(⟨k, .span fy0 ly⟩ : Fname)])
            k .anySingle) = false := by
        cases hb : memF (⟨k, .span fy0 ly⟩ : Fname)
            (globStore (preStore ⟨k, .span fy0 ly⟩ store ++ [(⟨k, .span fy0 ly⟩ : Fname)])
              k .anySingle) with
        | false => rfl
        | true =>
          exact absurd ((memF_eq_true_iff _ _).mp hb) (span_not_mem_glob_single k k fy0 ly _)
      rw [List.count_filter (by rw [hmf]; rfl), List.count_append, count_preStore_self]
      simp
  · -- update mode: inputs survive, the merged file exists once
    intro h
    obtain ⟨fy0, ly, fy, h1, h2, h3⟩ := mergeMonthly_inv true k store _ h
    obtain ⟨hall, hs, he⟩ := mergeCore_true_inv k store store' evs fy ly h3
    constructor
    · intro out ins hcat f hf
      rw [he] at hcat
      rcases List.mem_append.mp hcat with hin | hin
      · unfold preEvs at hin
        by_cases hm : memF (⟨k, .span fy ly⟩ : Fname) store = true
        · rw [if_pos hm] at hin
          exact FsEv.noConfusion (List.mem_singleton.mp hin)
        · rw [if_neg hm] at hin
          exact absurd hin (List.not_mem_nil _)
      · have heq := List.mem_singleton.mp hin
        injection heq with ho hi
        rw [hi] at hf
        have hf2 := hall f hf
        rw [hs]
        exact List.mem_append_left _ ((memF_eq_true_iff _ _).mp hf2)
    · refine ⟨fy, ly, ?_, ?_⟩
      · rw [hs, List.count_append, count_preStore_self]
        simp
      · rw [he]
        exact List.mem_append_right _ (List.mem_singleton.mpr rfl)
  · -- in either mode the only merged file removed is the same-named
    -- target, removed first, before the cat succeeds
    intro upd h f a b hr hspan
    obtain ⟨fy0, ly, fy, h1, h2, h3⟩ := mergeMonthly_inv upd k store _ h
    cases upd with
    | true =>
      obtain ⟨hall, hs, he⟩ := mergeCore_true_inv k store store' evs fy ly h3
      subst he
      rcases List.mem_append.mp hr with hin | hin
      · by_cases hm : memF (⟨k, .span fy ly⟩ : Fname) store = true
        · have hpe : preEvs (⟨k, .span fy ly⟩ : Fname) store =
              [FsEv.remove ⟨k, .span fy ly⟩] := by
            unfold preEvs
            rw [if_pos hm]
          rw [hpe] at hin ⊢
          have hfm := List.mem_singleton.mp hin
          injection hfm with hfm2
          subst hfm2
          exact ⟨_, rfl,
            globStore store k .anySpan ++ globStore store k .anySingle,
            List.mem_singleton.mpr rfl⟩
        · have hpe : preEvs (⟨k, .span fy ly⟩ : Fname) store = [] := by
            unfold preEvs
            rw [if_neg hm]
          rw [hpe] at hin
          exact absurd hin (List.not_mem_nil _)
      · exact FsEv.noConfusion (List.mem_singleton.mp hin)
    | false =>
      obtain ⟨hall, hs, he⟩ := mergeCore_false_inv k store store' evs fy ly h3
      subst he
      rcases List.mem_append.mp hr with hin | hin2
      · rcases List.mem_append.mp hin with hin1 | hin1
        · by_cases hm : memF (⟨k, .span fy ly⟩ : Fname) store = true
          · have hpe : preEvs (⟨k, .span fy ly⟩ : Fname) store =
                [FsEv.remove ⟨k, .span fy ly⟩] := by
              unfold preEvs
              rw [if_pos hm]
            rw [hpe] at hin1 ⊢
            have hfm := List.mem_singleton.mp hin1
            injection hfm with hfm2
            subst hfm2
            exact ⟨_, rfl,
              globStore (preStore ⟨k, .span fy ly⟩ store) k .anySingle,
              List.mem_append_left _ (List.mem_singleton.mpr rfl)⟩
          · have hpe : preEvs (⟨k, .span fy ly⟩ : Fname) store = [] := by
              unfold preEvs
              rw [if_neg hm]
            rw [hpe] at hin1
            exact absurd hin1 (List.not_mem_nil _)
        · exact FsEv.noConfusion (List.mem_singleton.mp hin1)
      · obtain ⟨g, hg, hge⟩ := List.mem_map.mp hin2
        injection hge with hge2
        subst hge2
        obtain ⟨_, _, hmatch⟩ := (mem_globStore _ k .anySingle g).mp hg
        rw [hspan] at hmatch
        simp [matchTok] at hmatch

/-- Witness for `merge_replacement_amended`: a non-update merge of the
per-year files 2000 and 2001. -/
theorem merge_replacement_amended_witness :
    mergeMonthly false ⟨"era5", "z500", "mon", "g25", "pl", "glob"⟩
        [⟨⟨"era5", "z500", "mon", "g25", "pl", "glob"⟩, .single 2000⟩,
         ⟨⟨"era5", "z500", "mon", "g25", "pl", "glob"⟩, .single 2001⟩] =
      some ([⟨⟨"era5", "z500", "mon", "g25", "pl", "glob"⟩, .span 2000 2001⟩],
            [.catWrite ⟨⟨"era5", "z500", "mon", "g25", "pl", "glob"⟩, .span 2000 2001⟩
               [⟨⟨"era5", "z500", "mon", "g25", "pl", "glob"⟩, .single 2000⟩,
                ⟨⟨"era5", "z500", "mon", "g25", "pl", "glob"⟩, .single 2001⟩],
             .remove ⟨⟨"era5", "z500", "mon", "g25", "pl", "glob"⟩, .single 2000⟩,
             .remove ⟨⟨"era5", "z500", "mon", "g25", "pl", "glob"⟩, .single 2001⟩]) ∧
    ((∀ f ∈ globStore
          [⟨⟨"era5", "z500", "mon", "g25", "pl", "glob"⟩, .single 2000⟩,
           ⟨⟨"era5", "z500", "mon", "g25", "pl", "glob"⟩, .single 2001⟩]
          ⟨"era5", "z500", "mon", "g25", "pl", "glob"⟩ .anySingle,
        f ∉ [⟨⟨"era5", "z500", "mon", "g25", "pl", "glob"⟩, .span 2000 2001⟩]) ∧
      ∃ fy ly, firstLastYear
          [⟨⟨"era5", "z500", "mon", "g25", "pl", "glob"⟩, .single 2000⟩,
           ⟨⟨"era5", "z500", "mon", "g25", "pl", "glob"⟩, .single 2001⟩]
          ⟨"era5", "z500", "mon", "g25", "pl", "glob"⟩ .anySingle = some (fy, ly) ∧
        List.count (⟨⟨"era5", "z500", "mon", "g25", "pl", "glob"⟩, .span fy ly⟩ : Fname)
          [⟨⟨"era5", "z500", "mon", "g25", "pl", "glob"⟩, .span 2000 2001⟩] = 1) :=
  ⟨rfl,
    (merge_replacement_amended ⟨"era5", "z500", "mon", "g25", "pl", "glob"⟩
      [⟨⟨"era5", "z500", "mon", "g25", "pl", "glob"⟩, .single 2000⟩,
       ⟨⟨"era5", "z500", "mon", "g25", "pl", "glob"⟩, .single 2001⟩]
      [⟨⟨"era5", "z500", "mon", "g25", "pl", "glob"⟩, .span 2000 2001⟩]
      [.catWrite ⟨⟨"era5", "z500", "mon", "g25", "pl", "glob"⟩, .span 2000 2001⟩
         [⟨⟨"era5", "z500", "mon", "g25", "pl", "glob"⟩, .single 2000⟩,
          ⟨⟨"era5", "z500", "mon", "g25", "pl", "glob"⟩, .single 2001⟩],
       .remove ⟨⟨"era5", "z500", "mon", "g25", "pl", "glob"⟩, .single 2000⟩,
       .remove ⟨⟨"era5", "z500", "mon", "g25", "pl", "glob"⟩, .single 2001⟩]).1 rfl⟩

/-- C2 counterexample: the spec's update scenario — a previously merged
1990-2015 file and one new per-year 2016 file.  The merge does take 1990
from the old file's name, does include the old merged file among the
`cdo.cat` inputs, and does produce the single 1990-2016 merged file; but
the final store still contains the old merged file and the 2016 per-year
file — neither is removed, against the claim. -/
theorem merge_update_scenario_cex :
    mergeMonthly true ⟨"era5", "2t", "mon", "g1", "sfc", "eu"⟩
        [⟨⟨"era5", "2t", "mon", "g1", "sfc", "eu"⟩, .span 1990 2015⟩,
         ⟨⟨"era5", "2t", "mon", "g1", "sfc", "eu"⟩, .single 2016⟩] =
      some ([⟨⟨"era5", "2t", "mon", "g1", "sfc", "eu"⟩, .span 1990 2015⟩,
             ⟨⟨"era5", "2t", "mon", "g1", "sfc", "eu"⟩, .single 2016⟩,
             ⟨⟨"era5", "2t", "mon", "g1", "sfc", "eu"⟩, .span 1990 2016⟩],
            [.catWrite ⟨⟨"era5", "2t", "mon", "g1", "sfc", "eu"⟩, .span 1990 2016⟩
               [⟨⟨"era5", "2t", "mon", "g1", "sfc", "eu"⟩, .span 1990 2015⟩,
                ⟨⟨"era5", "2t", "mon", "g1", "sfc", "eu"⟩, .single 2016⟩]]) ∧
    (⟨⟨"era5", "2t", "mon", "g1", "sfc", "eu"⟩, .span 1990 2015⟩ : Fname) ∈
      [⟨⟨"era5", "2t", "mon", "g1", "sfc", "eu"⟩, .span 1990 2015⟩,
       ⟨⟨"era5", "2t", "mon", "g1", "sfc", "eu"⟩, .single 2016⟩,
       (⟨⟨"era5", "2t", "mon", "g1", "sfc", "eu"⟩, .span 1990 2016⟩ : Fname)] ∧
    (⟨⟨"era5", "2t", "mon", "g1", "sfc", "eu"⟩, .single 2016⟩ : Fname) ∈
      [⟨⟨"era5", "2t", "mon", "g1", "sfc", "eu"⟩, .span 1990 2015⟩,
       ⟨⟨"era5", "2t", "mon", "g1", "sfc", "eu"⟩, .single 2016⟩,
       (⟨⟨"era5", "2t", "mon", "g1", "sfc", "eu"⟩, .span 1990 2016⟩ : Fname)] := by
  refine ⟨rfl, ?_, ?_⟩ <;> decide

/-- C2 amended: in the update scenario (previously merged 1990-2015 file
plus a new per-year 2016 file) the Aggregator takes 1990 — the old
file's embedded firstYear — as the overall firstYear, includes the old
merged file as a `cdo.cat` input alongside the new single, and produces
exactly one merged file spanning 1990-2016; however neither the old
merged file nor the 2016 per-year file is removed, because the deletion
step of lines 174-177 runs only when the merge input is still a glob
pattern string, i.e. only in non-update mode. -/
theorem merge_update_scenario_amended :
    (firstLastYear
        [⟨⟨"era5", "2t", "mon", "g1", "sfc", "eu"⟩, .span 1990 2015⟩,
         ⟨⟨"era5", "2t", "mon", "g1", "sfc", "eu"⟩, .single 2016⟩]
        ⟨"era5", "2t", "mon", "g1", "sfc", "eu"⟩ .anySpan).map Prod.fst = some 1990 ∧
    mergeMonthly true ⟨"era5", "2t", "mon", "g1", "sfc", "eu"⟩
        [⟨⟨"era5", "2t", "mon", "g1", "sfc", "eu"⟩, .span 1990 2015⟩,
         ⟨⟨"era5", "2t", "mon", "g1", "sfc", "eu"⟩, .single 2016⟩] =
      some ([⟨⟨"era5", "2t", "mon", "g1", "sfc", "eu"⟩, .span 1990 2015⟩,
             ⟨⟨"era5", "2t", "mon", "g1", "sfc", "eu"⟩, .single 2016⟩,
             ⟨⟨"era5", "2t", "mon", "g1", "sfc", "eu"⟩, .span 1990 2016⟩],
            [.catWrite ⟨⟨"era5", "2t", "mon", "g1", "sfc", "eu"⟩, .span 1990 2016⟩
               [⟨⟨"era5", "2t", "mon", "g1", "sfc", "eu"⟩, .span 1990 2015⟩,
                ⟨⟨"era5", "2t", "mon", "g1", "sfc", "eu"⟩, .single 2016⟩]]) ∧
    List.count (⟨⟨"era5", "2t", "mon", "g1", "sfc", "eu"⟩, .span 1990 2016⟩ : Fname)
      [⟨⟨"era5", "2t", "mon", "g1", "sfc", "eu"⟩, .span 1990 2015⟩,
       ⟨⟨"era5", "2t", "mon", "g1", "sfc", "eu"⟩, .single 2016⟩,
       ⟨⟨"era5", "2t", "mon", "g1", "sfc", "eu"⟩, .span 1990 2016⟩] = 1 ∧
    (⟨⟨"era5", "2t", "mon", "g1", "sfc", "eu"⟩, .span 1990 2015⟩ : Fname) ∈
      [⟨⟨"era5", "2t", "mon", "g1", "sfc", "eu"⟩, .span 1990 2015⟩,
       ⟨⟨"era5", "2t", "mon", "g1", "sfc", "eu"⟩, .single 2016⟩,
       (⟨⟨"era5", "2t", "mon", "g1", "sfc", "eu"⟩, .span 1990 2016⟩ : Fname)] ∧
    (⟨⟨"era5", "2t", "mon", "g1", "sfc", "eu"⟩, .single 2016⟩ : Fname) ∈
      [⟨⟨"era5", "2t", "mon", "g1", "sfc", "eu"⟩, .span 1990 2015⟩,
       ⟨⟨"era5", "2t", "mon", "g1", "sfc", "eu"⟩, .single 2016⟩,
       (⟨⟨"era5", "2t", "mon", "g1", "sfc", "eu"⟩, .span 1990 2016⟩ : Fname)] := by
  refine ⟨rfl, rfl, ?_, ?_, ?_⟩ <;> decide

/-! ## C4: batching and the concurrency ceiling -/

theorem chunks_nil (n : Nat) : chunks n ([] : List α) = [] := by
  rw [chunks]
  by_cases h : n = 0 <;> simp [h]

theorem chunks_cons (n : Nat) (hn : 0 < n) (x : α) (xs : List α) :
    chunks n (x :: xs) = (x :: xs).take n :: chunks n ((x :: xs).drop n) := by
  rw [chunks]
  simp [hn.ne']

theorem ceil_div_step (L n : Nat) (hn : 0 < n) (hL : 0 < L) :
    (L + n - 1) / n = (L - n + n - 1) / n + 1 := by
  rcases Nat.le_total L n with h | h
  · have h1 : L - n = 0 := by omega
    have h2 : L + n - 1 = (L - 1) + n := by omega
    rw [h1, h2, Nat.add_div_right _ hn, Nat.div_eq_of_lt (by omega),
      Nat.div_eq_of_lt (by omega)]
  · have h2 : L + n - 1 = (L - n + n - 1) + n := by omega
    rw [h2, Nat.add_div_right _ hn]

theorem chunks_length_aux (n : Nat) (hn : 0 < n) (N : Nat) :
    ∀ l : List α, l.length = N → (chunks n l).length = (l.length + n - 1) / n := by
  induction N using Nat.strong_induction_on with
  | _ N ih =>
    intro l hN
    cases l with
    | nil =>
      rw [chunks_nil]
      simp only [List.length_nil, Nat.zero_add]
      exact (Nat.div_eq_of_lt (by omega)).symm
    | cons x xs =>
      rw [chunks_cons n hn x xs]
      have hd : ((x :: xs).drop n).length = (x :: xs).length - n := List.length_drop _ _
      have hL : 0 < (x :: xs).length := by simp
      have hlt : (x :: xs).length - n < N := by
        rw [hN] at hL ⊢
        omega
      have ihd := ih _ hlt ((x :: xs).drop n) hd
      rw [List.length_cons, ihd, hd]
      exact (ceil_div_step (x :: xs).length n hn hL).symm

/-- The number of batches is `ceil(L / N)`. -/
theorem chunks_length (n : Nat) (hn : 0 < n) (l : List α) :
    (chunks n l).length = (l.length + n - 1) / n :=
  chunks_length_aux n hn l.length l rfl

theorem length_le_of_mem_chunks_aux (n N : Nat) :
    ∀ l b : List α, l.length = N → b ∈ chunks n l → b.length ≤ n := by
  induction N using Nat.strong_induction_on with
  | _ N ih =>
    intro l b hN hb
    cases l with
    | nil =>
      rw [chunks_nil] at hb
      exact absurd hb (List.not_mem_nil b)
    | cons x xs =>
      by_cases hn0 : n = 0
      · rw [chunks, if_pos hn0] at hb
        exact absurd hb (List.not_mem_nil b)
      · rw [chunks_cons n (Nat.pos_of_ne_zero hn0) x xs] at hb
        rcases List.mem_cons.mp hb with he | hm
        · rw [he, List.length_take]
          exact Nat.min_le_left _ _
        · have hlt : (x :: xs).length - n < N := by
            have hL : 0 < (x :: xs).length := by simp
            rw [hN] at hL ⊢
            have := Nat.pos_of_ne_zero hn0
            omega
          exact ih _ hlt _ b (List.length_drop _ _) hm

/-- Every batch has size at most the ceiling. -/
theorem length_le_of_mem_chunks (n : Nat) (l b : List α) (hb : b ∈ chunks n l) :
    b.length ≤ n :=
  length_le_of_mem_chunks_aux n l.length l b rfl hb

theorem chunks_flatten_aux (n : Nat) (hn : 0 < n) (N : Nat) :
    ∀ l : List α, l.length = N → (chunks n l).flatten = l := by
  induction N using Nat.strong_induction_on with
  | _ N ih =>
    intro l hN
    cases l with
    | nil => rw [chunks_nil]; rfl
    | cons x xs =>
      rw [chunks_cons n hn x xs, List.flatten_cons]
      have hlt : (x :: xs).length - n < N := by
        have hL : 0 < (x :: xs).length := by simp
        rw [hN] at hL ⊢
        omega
      rw [ih _ hlt ((x :: xs).drop n) (List.length_drop _ _), List.take_append_drop]

/-- The batches partition the year list, consecutively and in order. -/
theorem chunks_flatten (n : Nat) (hn : 0 < n) (l : List α) :
    (chunks n l).flatten = l :=
  chunks_flatten_aux n hn l.length l rfl

theorem startsOf_append (p q : List WEv) :
    startsOf (p ++ q) = startsOf p ++ startsOf q := by
  simp [startsOf, List.filterMap_append]

theorem finsOf_append (p q : List WEv) :
    finsOf (p ++ q) = finsOf p ++ finsOf q := by
  simp [finsOf, List.filterMap_append]

/-- In any trace the scheduler can produce, the number of simultaneously
alive workers after any prefix is bounded by the largest batch size. -/
theorem schedTrace_active_le (n : Nat) (bs : List (List Nat)) (t : List WEv)
    (ht : SchedTrace bs t) :
    (∀ b ∈ bs, b.length ≤ n) → ∀ p q, t = p ++ q → activeCount p ≤ n := by
  induction ht with
  | nil =>
    intro _ p q hpq
    have hp : p = [] := by
      cases p with
      | nil => rfl
      | cons a l => exact absurd hpq.symm (by simp)
    subst hp
    simp [activeCount, startsOf, finsOf]
  | @cons b s bs' t' hseg hrest ih =>
    intro hb p q hpq
    rcases List.append_eq_append_iff.mp hpq with ⟨a, ha1, ha2⟩ | ⟨c', hc1, hc2⟩
    · subst ha1
      have hs : (startsOf s).length = b.length := by rw [hseg.1]
      have hf : (finsOf s).length = b.length := hseg.2.1.length_eq
      have hactive : activeCount (s ++ a) = activeCount a := by
        rw [activeCount, startsOf_append, finsOf_append, List.length_append,
          List.length_append, hs, hf, activeCount]
        omega
      rw [hactive]
      exact ih (fun b hb2 => hb b (List.mem_cons_of_mem _ hb2)) a q ha2
    · have hs : startsOf s = startsOf p ++ startsOf c' := by
        rw [hc1, startsOf_append]
      have hsb : (startsOf p).length ≤ b.length := by
        have : (startsOf s).length = (startsOf p).length + (startsOf c').length := by
          rw [hs, List.length_append]
        rw [hseg.1] at this
        omega
      have hbn : b.length ≤ n := hb b (List.mem_cons_self b bs')
      rw [activeCount]
      omega

/-- C4: for a year list of length `L` and ceiling `N > 0`, the scheduler
slices the years into exactly `ceil(L/N)` consecutive batches, each of
size at most `N`; the batches partition the year list in order; and in
every trace the scheduler can produce — one barrier-delimited segment per
batch, as forced by the end-of-batch `join` loop — the number of
simultaneously active workers never exceeds `N`. -/
theorem batch_barrier_bound (years : List Nat) (n : Nat) (hn : 0 < n) :
    (chunks n years).length = (years.length + n - 1) / n ∧
    (∀ b ∈ chunks n years, b.length ≤ n) ∧
    (chunks n years).flatten = years ∧
    (∀ t, SchedTrace (chunks n years) t →
      ∀ p q, t = p ++ q → activeCount p ≤ n) := by
  refine ⟨chunks_length n hn years, ?_, chunks_flatten n hn years, ?_⟩
  · exact fun b hb => length_le_of_mem_chunks n years b hb
  · intro t ht p q hpq
    exact schedTrace_active_le n (chunks n years) t ht
      (fun b hb => length_le_of_mem_chunks n years b hb) p q hpq

/-- Witness for `batch_barrier_bound`: the spec's scenario, years
2000-2003 with `nprocs = 2`, giving batches `[2000, 2001]` and
`[2002, 2003]`. -/
theorem batch_barrier_bound_witness :
    (0 : Nat) < 2 ∧
    (chunks 2 [2000, 2001, 2002, 2003]).length = (4 + 2 - 1) / 2 ∧
    (∀ b ∈ chunks 2 [2000, 2001, 2002, 2003], b.length ≤ 2) ∧
    (chunks 2 [2000, 2001, 2002, 2003]).flatten = [2000, 2001, 2002, 2003] ∧
    (∀ t, SchedTrace (chunks 2 [2000, 2001, 2002, 2003]) t →
      ∀ p q, t = p ++ q → activeCount p ≤ 2) :=
  ⟨by decide, batch_barrier_bound [2000, 2001, 2002, 2003] 2 (by decide)⟩

/-! ## C8: disabled flags are never re-enabled -/

theorem stepVar_retrieve_off (freq : String) (detect : String → Nat × Nat)
    (existsOut : String → Nat → Bool) (st : LoopSt) (v : String)
    (h : st.do_retrieve = false) :
    (stepVar true freq detect existsOut st v).1.do_retrieve = false ∧
    (stepVar true freq detect existsOut st v).2.retrieveStarted = [] := by
  unfold stepVar
  by_cases hc : (detect v).2 < (detect v).1
  · simp [hc, h]
  · simp [hc, h]

theorem stepVar_postproc_off (freq : String) (detect : String → Nat × Nat)
    (existsOut : String → Nat → Bool) (st : LoopSt) (v : String)
    (h : st.do_postproc = false) :
    (stepVar true freq detect existsOut st v).1.do_postproc = false ∧
    (stepVar true freq detect existsOut st v).2.convertStarted = [] ∧
    (stepVar true freq detect existsOut st v).2.postprocRan = false := by
  unfold stepVar
  by_cases hc : (detect v).2 < (detect v).1
  · by_cases hm : freq = "mon" <;> simp [hc, hm, h]
  · simp [hc, h]

theorem stepVar_empty_detect (freq : String) (detect : String → Nat × Nat)
    (existsOut : String → Nat → Bool) (st : LoopSt) (v : String)
    (hd : (detect v).2 < (detect v).1) :
    (stepVar true freq detect existsOut st v).1.do_retrieve = false ∧
    (freq = "mon" → (stepVar true freq detect existsOut st v).1.do_postproc = false) := by
  constructor
  · simp [stepVar, hd]
  · intro hm
    simp [stepVar, hd, hm]

theorem runLoop_append (update : Bool) (freq : String) (detect : String → Nat × Nat)
    (existsOut : String → Nat → Bool) (l1 l2 : List String) :
    ∀ st, runLoop update freq detect existsOut st (l1 ++ l2) =
      runLoop update freq detect existsOut st l1 ++
      runLoop update freq detect existsOut
        (loopStates update freq detect existsOut st l1) l2 := by
  induction l1 with
  | nil => intro st; simp [runLoop, loopStates]
  | cons v vs ih =>
    intro st
    simp only [List.cons_append, runLoop, loopStates]
    rw [List.append_eq, ih]

theorem runLoop_retrieve_off (freq : String) (detect : String → Nat × Nat)
    (existsOut : String → Nat → Bool) (vs : List String) :
    ∀ st : LoopSt, st.do_retrieve = false →
      ∀ r ∈ runLoop true freq detect existsOut st vs, r.retrieveStarted = [] := by
  induction vs with
  | nil =>
    intro st h r hr
    simp [runLoop] at hr
  | cons v vs ih =>
    intro st h r hr
    simp only [runLoop] at hr
    rcases List.mem_cons.mp hr with he | hm
    · rw [he]
      exact (stepVar_retrieve_off freq detect existsOut st v h).2
    · exact ih _ (stepVar_retrieve_off freq detect existsOut st v h).1 r hm

theorem runLoop_postproc_off (freq : String) (detect : String → Nat × Nat)
    (existsOut : String → Nat → Bool) (vs : List String) :
    ∀ st : LoopSt, st.do_postproc = false →
      ∀ r ∈ runLoop true freq detect existsOut st vs,
        r.convertStarted = [] ∧ r.postprocRan = false := by
  induction vs with
  | nil =>
    intro st h r hr
    simp [runLoop] at hr
  | cons v vs ih =>
    intro st h r hr
    simp only [runLoop] at hr
    rcases List.mem_cons.mp hr with he | hm
    · rw [he]
      exact (stepVar_postproc_off freq detect existsOut st v h).2
    · exact ih _ (stepVar_postproc_off freq detect existsOut st v h).1 r hm

/-- C8: `do_retrieve` (and, for monthly frequency, `do_postproc`) once
disabled by an empty update-detection result is never re-enabled inside
the per-variable loop: in update mode, when some variable `v` of the
varlist is detected fully up to date, every variable processed after `v`
starts no retrieval worker — even one with missing years — and, when the
frequency is monthly, also runs no conversion or post-processing. -/
theorem flags_never_reenabled (freq : String) (detect : String → Nat × Nat)
    (existsOut : String → Nat → Bool) (st : LoopSt)
    (vs1 : List String) (v : String) (vs2 : List String)
    (hd : (detect v).2 < (detect v).1) :
    runLoop true freq detect existsOut st (vs1 ++ v :: vs2) =
      runLoop true freq detect existsOut st vs1 ++
      (stepVar true freq detect existsOut (loopStates true freq detect existsOut st vs1) v).2 ::
      runLoop true freq detect existsOut
        (stepVar true freq detect existsOut (loopStates true freq detect existsOut st vs1) v).1 vs2 ∧
    ∀ r ∈ runLoop true freq detect existsOut
        (stepVar true freq detect existsOut (loopStates true freq detect existsOut st vs1) v).1 vs2,
      r.retrieveStarted = [] ∧
      (freq = "mon" → r.convertStarted = [] ∧ r.postprocRan = false) := by
  constructor
  · rw [runLoop_append]
    rfl
  · intro r hr
    have hst := stepVar_empty_detect freq detect existsOut
      (loopStates true freq detect existsOut st vs1) v hd
    refine ⟨runLoop_retrieve_off freq detect existsOut vs2 _ hst.1 r hr, ?_⟩
    intro hm
    exact runLoop_postproc_off freq detect existsOut vs2 _ (hst.2 hm) r hr

/-- Witness for `flags_never_reenabled`: two variables in update mode,
the first fully up to date, the second with missing years 2001-2002. -/
theorem flags_never_reenabled_witness :
    (((fun v : String => if v = "u10" then ((2024, 2023) : Nat × Nat) else (2001, 2002)) "u10").2 <
      ((fun v : String => if v = "u10" then ((2024, 2023) : Nat × Nat) else (2001, 2002)) "u10").1) ∧
    ∀ r ∈ runLoop true "mon"
        (fun v : String => if v = "u10" then ((2024, 2023) : Nat × Nat) else (2001, 2002))
        (fun _ _ => false)
        (stepVar true "mon"
          (fun v : String => if v = "u10" then ((2024, 2023) : Nat × Nat) else (2001, 2002))
          (fun _ _ => false)
          (loopStates true "mon"
            (fun v : String => if v = "u10" then ((2024, 2023) : Nat × Nat) else (2001, 2002))
            (fun _ _ => false) ⟨true, true, 2000, 2003⟩ []) "u10").1 ["v10"],
      r.retrieveStarted = [] ∧
      ("mon" = "mon" → r.convertStarted = [] ∧ r.postprocRan = false) :=
  ⟨by decide,
    (flags_never_reenabled "mon"
      (fun v : String => if v = "u10" then ((2024, 2023) : Nat × Nat) else (2001, 2002))
      (fun _ _ => false) ⟨true, true, 2000, 2003⟩ [] "u10" ["v10"] (by decide)).2⟩

end CDS
